import Mathlib

/-!
Verification development for codevalidator.py, a source-file validation and
auto-fix engine.  The definitions below are a shallow embedding of the
engine's core: string helpers used by the built-in rules, the pattern
resolver (`validate_file`'s rule resolution), the validation dispatcher
(`validate_file_with_rules` / `_error`), the fix pipeline (`fix_file`),
and the single-file filter-mode gate in `main`.

Modelling conventions:
* file content is modelled as `String` (the program reads bytes and decodes
  them; all content relevant here is ASCII, so the bytes/str distinction of
  the source is elided);
* checks and fixers that shell out to external tools are modelled by
  quantifying over their observable behaviour (`Registry`, `FixRegistry`);
  the pure built-in rules (`notabs`, `nocr`, `notrailingws`,
  `sql_semi_colon`) are embedded directly from their source;
* the per-run mutable globals `VALIDATION_ERRORS` / `VALIDATION_DETAILS`
  become an explicit state record threaded through the dispatcher.
-/

namespace CodeValidator

/-! ## String helpers (List-of-Char level, mirroring the Python primitives) -/

/-- Split a character list at every occurrence of `sep`, like Python's
`str.split(sep)` / `String.splitOn`: `"a/b" ↦ ["a", "b"]`, `"" ↦ [""]`. -/
def splitOnChar (sep : Char) : List Char → List (List Char)
  | [] => [[]]
  | c :: rest =>
    let r := splitOnChar sep rest
    if c = sep then [] :: r
    else (c :: r.headD []) :: r.tail

/-- Split into lines keeping the terminating newline on each line, exactly the
way iterating a Python file object or `StringIO` yields lines: a final
fragment without a newline is returned as a last line; empty input yields
no lines. -/
def splitLinesKeep : List Char → List (List Char) :=
  go []
where
  go (acc : List Char) : List Char → List (List Char)
    | [] => if acc.isEmpty then [] else [acc.reverse]
    | c :: rest =>
      if c = '\n' then (acc.reverse ++ ['\n']) :: go [] rest
      else go (c :: acc) rest

/-- Remove from the end of `s` every character belonging to `strip`; models
Python's `rstrip` with an explicit strip set. -/
def rstripChars (strip : List Char) (s : List Char) : List Char :=
  (s.reverse.dropWhile (fun c => strip.contains c)).reverse

/-- The characters Python's argument-less `str.rstrip()` removes. -/
def pyWhitespace : List Char := [' ', '\t', '\n', '\r', '\x0b', '\x0c']

/-- Replace every tab by four spaces; models `content.replace(b'\t', b' ' * 4)`
in `_fix_notabs`. -/
def replaceTabs : List Char → List Char
  | [] => []
  | c :: rest =>
    if c = '\t' then ' ' :: ' ' :: ' ' :: ' ' :: replaceTabs rest
    else c :: replaceTabs rest

/-- Substring test on character lists (Python's `needle in hay`). -/
def textContains (needle hay : List Char) : Bool :=
  (List.range (hay.length + 1)).any (fun i => needle.isPrefixOf (hay.drop i))

/-- `fnmatch.fnmatch`-style glob matching of `s` against pattern `p`, for the
patterns the configuration actually uses: `*` matches any (possibly empty)
character sequence including `/` (fnmatch is not pathname-aware), `?` matches
exactly one character, anything else matches itself.  (The source's config
contains no `[...]` character classes.) -/
def fnmatchList (p s : List Char) : Bool :=
  match p, s with
  | [], s => s.isEmpty
  | '*' :: ps, s => (List.range (s.length + 1)).any (fun i => fnmatchList ps (s.drop i))
  | '?' :: _, [] => false
  | '?' :: ps, _ :: s' => fnmatchList ps s'
  | _ :: _, [] => false
  | c :: ps, c' :: s' => c = c' && fnmatchList ps s'

/-- `fnmatch.fnmatch(name, pat)` on strings. -/
def fnmatchStr (name pat : String) : Bool :=
  fnmatchList pat.data name.data

/-! ## Pattern resolver (`get_dirs`, `validate_file`, `validate_file_dir_rules`) -/

/-- `get_dirs(path)`: the ordered list of path components, root to leaf.
The source computes this by repeated `os.path.split`; on the normalized
absolute paths it is applied to, that equals splitting on `/` and dropping
empty components. -/
def get_dirs (path : String) : List String :=
  ((splitOnChar '/' path.data).filter (fun c => !c.isEmpty)).map (fun c => String.mk c)

/-- `os.path.abspath` as used by `validate_file_dir_rules`, for an
already-normalized `cwd` and a path free of `.`/`..` components: a relative
path is anchored at the current working directory. -/
def abspath (cwd fname : String) : String :=
  if fname.data.headD ' ' = '/' then fname else cwd ++ "/" ++ fname

/-- `os.path.split(fname)[1]`: the final path component. -/
def basename (fname : String) : String :=
  String.mk ((splitOnChar '/' fname.data).getLastD [])

/-- The read-only configuration snapshot the resolver consults: ordered
glob-pattern rules, ordered directory-name rules, and the exclusion lists.
Association lists keep the insertion order of the source's (Python 3.7+,
insertion-ordered) dicts. -/
structure Config where
  exclude_dirs : List String
  exclude_files : List String
  rules : List (String × List String)
  dir_rules : List (String × List String)

/-- The rules `validate_file_dir_rules` runs for `fname`:
`sum([dir_rules[k] for k in dir_rules if k in dirs], [])` over the
components of the absolute path. -/
def validate_file_dir_rules_rules (cfg : Config) (cwd fname : String) : List String :=
  ((cfg.dir_rules.filter (fun kv => (get_dirs (abspath cwd fname)).contains kv.1)).map
    Prod.snd).flatten

/-- The rules contributed by the glob pass of `validate_file`: every
configuration pattern matching `fname` contributes its rule list, in
configuration order. -/
def validate_file_glob_rules (cfg : Config) (fname : String) : List String :=
  ((cfg.rules.filter (fun pr => fnmatchStr fname pr.1)).map Prod.snd).flatten

/-- The early-return exclusion test at the top of `validate_file`:
`'/%s/' % exclude in fname` for excluded directories, then
`fnmatch(tail, exclude)` for excluded file patterns. -/
def excludedB (cfg : Config) (fname : String) : Bool :=
  cfg.exclude_dirs.any (fun ex => textContains ("/" ++ ex ++ "/").data fname.data) ||
    cfg.exclude_files.any (fun ex => fnmatchStr (basename fname) ex)

/-- The full ordered sequence of rule names `validate_file` dispatches for
one file: nothing when excluded, otherwise first the directory-name rules
(via `validate_file_dir_rules`), then the rules of each matching glob
pattern. -/
def validate_file_rule_sequence (cfg : Config) (cwd fname : String) : List String :=
  if excludedB cfg fname then []
  else validate_file_dir_rules_rules cfg cwd fname ++ validate_file_glob_rules cfg fname

/-- `DEFAULT_RULES` from the source. -/
def DEFAULT_RULES : List String :=
  ["utf8", "nobom", "notabs", "nocr", "notrailingws"]

/-- `DEFAULT_CONFIG` from the source (the resolver-relevant fields). -/
def theConfig : Config :=
  { exclude_dirs := [".svn", ".git"]
  , exclude_files := [".*.swp"]
  , rules :=
      [ ("*.c", DEFAULT_RULES)
      , ("*.coffee", DEFAULT_RULES ++ ["coffeelint"])
      , ("*.conf", DEFAULT_RULES)
      , ("*.cpp", DEFAULT_RULES)
      , ("*.css", DEFAULT_RULES)
      , ("*.erb", DEFAULT_RULES ++ ["erb"])
      , ("*.groovy", DEFAULT_RULES)
      , ("*.h", DEFAULT_RULES)
      , ("*.htm", DEFAULT_RULES)
      , ("*.html", DEFAULT_RULES)
      , ("*.java", DEFAULT_RULES ++ ["jalopy"])
      , ("*.js", DEFAULT_RULES ++ ["jshint"])
      , ("*.json", DEFAULT_RULES ++ ["json"])
      , ("*.jsp", DEFAULT_RULES)
      , ("*.less", DEFAULT_RULES)
      , ("*.md", DEFAULT_RULES)
      , ("*.php", DEFAULT_RULES ++ ["phpcs"])
      , ("*.phtml", DEFAULT_RULES)
      , ("*.pp", DEFAULT_RULES ++ ["puppet"])
      , ("*.properties", DEFAULT_RULES ++ ["ascii"])
      , ("*.py", DEFAULT_RULES ++ ["pyflakes", "pythontidy"])
      , ("*.rst", DEFAULT_RULES)
      , ("*.rb", DEFAULT_RULES ++ ["ruby", "rubocop"])
      , ("* *", ["invalidpath"])
      , ("*.sh", DEFAULT_RULES)
      , ("*.sql", DEFAULT_RULES ++ ["sql_semi_colon"])
      , ("*.sql_diff", DEFAULT_RULES ++ ["sql_semi_colon"])
      , ("*.styl", DEFAULT_RULES)
      , ("*.txt", DEFAULT_RULES)
      , ("*.vm", DEFAULT_RULES)
      , ("*.wsdl", DEFAULT_RULES)
      , ("*.xml", DEFAULT_RULES ++ ["xml", "xmlfmt"])
      , ("*.yaml", DEFAULT_RULES ++ ["yaml"])
      , ("*.yml", DEFAULT_RULES ++ ["yaml"])
      , ("*pom.xml", ["pomdesc"]) ]
  , dir_rules :=
      [ ("db_diffs", ["sql_diff_dir", "sql_diff_sql"])
      , ("database", ["database_dir"]) ] }

/-! ## Validation dispatcher (`validate_file_with_rules`, `_error`, `_detail`) -/

/-- A value a check capability can return: the source's checks return either
a boolean or a (possibly dynamic) message string. -/
inductive PyValue where
  | bool (b : Bool)
  | str (s : String)
deriving DecidableEq

/-- Python truthiness of a check's return value (`if not res`). -/
def PyValue.truthy : PyValue → Bool
  | .bool b => b
  | .str s => !s.isEmpty

/-- `type(res) == str`. -/
def PyValue.isStr : PyValue → Bool
  | .bool _ => false
  | .str _ => true

/-- A Python exception as the dispatcher observes it: its class name, its
message text, and whether it is one of this program's own exception types
(`ConfigurationError` / `ExecutionError`), whose overridden `__str__`
renders as `ClassName: text`; every other exception renders as its text
alone. -/
structure PyExc where
  cls : String
  text : String
  customStr : Bool
deriving DecidableEq

/-- `str(e)` for an exception: the source's `BaseException.__str__` is
`'%s: %s' % (self.__class__.__name__, self.msg)`; ordinary exceptions
render just their message. -/
def PyExc.render (e : PyExc) : String :=
  if e.customStr then e.cls ++ ": " ++ e.text else e.text

/-- A detail record appended by `_detail(message, line, column)`. -/
structure Detail where
  message : String
  line : Option String
  column : Option String
deriving DecidableEq

/-- The observable behaviour of one check invocation: either it returns a
value, or it raises; either way it may first have appended detail records
(in order) via `_detail`. -/
inductive CheckRun where
  | ret (v : PyValue) (details : List Detail)
  | exc (e : PyExc) (details : List Detail)
deriving DecidableEq

/-- The details a run appended. -/
def CheckRun.details : CheckRun → List Detail
  | .ret _ ds => ds
  | .exc _ ds => ds

/-- The check registry: `globals().get('_validate_' + rule)`, with each
check's behaviour as a function of the file content it reads (external
effects are folded into this function; theorems quantify over it). -/
def Registry := String → Option (String → CheckRun)

/-- One failure line the collector prints: `<fname>: <message>`, together
with the detail records printed (indented) under it when verbosity is on. -/
structure ReportEntry where
  fname : String
  rule : String
  message : String
  details : List Detail
deriving DecidableEq

/-- The dispatcher's mutable state: the `VALIDATION_ERRORS` list of
`(fname, rule)` failures, the transient `VALIDATION_DETAILS` buffer, and
the report lines emitted so far. -/
structure VState where
  errors : List (String × String)
  details : List Detail
  report : List ReportEntry
deriving DecidableEq

/-- The state at run start: both global lists empty, nothing reported. -/
def VState.empty : VState := ⟨[], [], []⟩

/-- The message of the most recently reported failure. -/
def VState.lastMessage (st : VState) : Option String :=
  st.report.getLast?.map ReportEntry.message

/-- `_error(fname, rule, func, message)`: print the failure line with the
currently buffered details (details are shown only when verbose), clear the
detail buffer, and append `(fname, rule)` to `VALIDATION_ERRORS`. -/
def errorStep (verbose : Bool) (fname rule msg : String) (st : VState) : VState :=
  { errors := st.errors ++ [(fname, rule)]
  , details := []
  , report := st.report ++ [⟨fname, rule, msg, if verbose then st.details else []⟩] }

/-- One iteration of the loop in `validate_file_with_rules`: look up the
check; a missing check only prints a notice; otherwise run it, append its
details to the buffer, and interpret the outcome — an exception becomes a
failure with message `ERROR validating <rule>: <str(e)>`; a falsy return
fails with the rule's default message; a truthy string return fails with
that string; any other truthy value passes. -/
def validateRule (checkOf : Registry) (msgOf : String → String) (verbose : Bool)
    (fname content rule : String) (st : VState) : VState :=
  match checkOf rule with
  | none => st
  | some chk =>
    match chk content with
    | .exc e ds =>
        errorStep verbose fname rule ("ERROR validating " ++ rule ++ ": " ++ e.render)
          { st with details := st.details ++ ds }
    | .ret v ds =>
        let st' := { st with details := st.details ++ ds }
        match v with
        | .bool b => if b then st' else errorStep verbose fname rule (msgOf rule) st'
        | .str s =>
            if s.isEmpty then errorStep verbose fname rule (msgOf rule) st'
            else errorStep verbose fname rule s st'

/-- `validate_file_with_rules(fname, rules)`: run every rule's check against
the (re-read) file content, threading the collector state. -/
def validateRulesList (checkOf : Registry) (msgOf : String → String) (verbose : Bool)
    (fname content : String) : List String → VState → VState
  | [], st => st
  | r :: rs, st =>
      validateRulesList checkOf msgOf verbose fname content rs
        (validateRule checkOf msgOf verbose fname content r st)

/-- A whole validation run over several files: each job is
`(fname, content, rules)`; the collector state is shared across the run,
exactly as the source's module-level lists are. -/
def validateJobs (checkOf : Registry) (msgOf : String → String) (verbose : Bool) :
    List (String × String × List String) → VState → VState
  | [], st => st
  | (f, c, rs) :: jobs, st =>
      validateJobs checkOf msgOf verbose jobs
        (validateRulesList checkOf msgOf verbose f c rs st)

/-- Modelled from the spec's words (§3 DetailRecord, §8 detail-buffer
isolation): the reporting step as the spec describes it, where a failure's
report shows exactly the details of its own rule invocation and the buffer
never carries anything between invocations. -/
def errorStepSpec (verbose : Bool) (fname rule msg : String) (ds : List Detail)
    (st : VState) : VState :=
  { errors := st.errors ++ [(fname, rule)]
  , details := []
  , report := st.report ++ [⟨fname, rule, msg, if verbose then ds else []⟩] }

/-- Modelled from the spec's words: the dispatcher step with per-invocation
detail scoping (compare `validateRule`, which is translated from the
source and reports whatever the shared buffer holds). -/
def validateRuleSpec (checkOf : Registry) (msgOf : String → String) (verbose : Bool)
    (fname content rule : String) (st : VState) : VState :=
  match checkOf rule with
  | none => st
  | some chk =>
    match chk content with
    | .exc e ds =>
        errorStepSpec verbose fname rule ("ERROR validating " ++ rule ++ ": " ++ e.render) ds st
    | .ret v ds =>
        match v with
        | .bool b => if b then st else errorStepSpec verbose fname rule (msgOf rule) ds st
        | .str s =>
            if s.isEmpty then errorStepSpec verbose fname rule (msgOf rule) ds st
            else errorStepSpec verbose fname rule s ds st

/-- Modelled from the spec's words: `validateRulesList` with isolated
detail scoping. -/
def validateRulesListSpec (checkOf : Registry) (msgOf : String → String) (verbose : Bool)
    (fname content : String) : List String → VState → VState
  | [], st => st
  | r :: rs, st =>
      validateRulesListSpec checkOf msgOf verbose fname content rs
        (validateRuleSpec checkOf msgOf verbose fname content r st)

/-- Modelled from the spec's words: `validateJobs` with isolated detail
scoping. -/
def validateJobsSpec (checkOf : Registry) (msgOf : String → String) (verbose : Bool) :
    List (String × String × List String) → VState → VState
  | [], st => st
  | (f, c, rs) :: jobs, st =>
      validateJobsSpec checkOf msgOf verbose jobs
        (validateRulesListSpec checkOf msgOf verbose f c rs st)

/-! ## Embedded built-in rules (the pure checks and fixers, from the source) -/

/-- `_validate_notabs`: `b'\t' not in fd.read()`. -/
def validate_notabs (s : String) : CheckRun :=
  .ret (.bool (!s.data.contains '\t')) []

/-- The per-line test of `_validate_notrailingws`:
`line.rstrip(b'\n\r')[-1:] in TRAILING_WHITESPACE_CHARS`. -/
def lineHasTrailingWs (line : List Char) : Bool :=
  match (rstripChars ['\n', '\r'] line).getLast? with
  | some ' ' => true
  | some '\t' => true
  | _ => false

/-- `_validate_notrailingws`: fails iff some line, with its newline stripped,
ends in a space or tab. -/
def validate_notrailingws (s : String) : CheckRun :=
  .ret (.bool (!(splitLinesKeep s.data).any lineHasTrailingWs)) []

/-- The check registry restricted to the embedded pure checks; rules whose
checks shell out to external tools are covered by quantifying over
`Registry` in the theorems. -/
def theCheckOf : Registry := fun r =>
  if r = "notabs" then some validate_notabs
  else if r = "notrailingws" then some validate_notrailingws
  else none

/-- The `@message(...)` default messages of the built-in rules (after the
source's `%`-interpolation with the rule's options, a no-op for these
messages, which contain no placeholders). -/
def theMsgOf : String → String := fun r =>
  if r = "notabs" then "contains tabs"
  else if r = "notrailingws" then "contains lines with trailing whitespace"
  else if r = "nocr" then "contains carriage return (CR)"
  else if r = "utf8" then "is not UTF-8 encoded"
  else if r = "nobom" then "has UTF-8 byte order mark (BOM)"
  else if r = "sql_semi_colon" then "SQL file ends without a semicolon"
  else ""

/-! ## Fix pipeline (`fix_file`) -/

/-- The observable behaviour of one fixer invocation on a source buffer:
either it completes with the destination buffer's content, or it raises —
in which case `excOut` is whatever it had already written into the fresh
destination buffer before raising. -/
inductive FixRun where
  | ok (out : String)
  | exc (excOut : String) (msg : String)
deriving DecidableEq

/-- The fixer registry: `globals().get('_fix_' + rule)`. -/
def FixRegistry := String → Option (String → FixRun)

/-- Events of one `fix_file` call, in order: the backup copy
(`shutil.copy2`), each fixer invocation, and the final rewrite of the file. -/
inductive FixEvent where
  | backup
  | runFixer (rule : String)
  | writeFile (content : String)
deriving DecidableEq

def FixEvent.isWrite : FixEvent → Bool
  | .writeFile _ => true
  | _ => false

def FixEvent.isBackup : FixEvent → Bool
  | .backup => true
  | _ => false

/-- The loop state of `fix_file`: the `was_fixed` flag, the current `dst`
buffer (`none` while `dst` is still the original file handle, `some s` once
it is a `StringIO` holding `s`), the events so far, and — as
instrumentation for the theorems — whether any fixer has raised. -/
structure FixLoopState where
  wasFixed : Bool
  dst : Option String
  events : List FixEvent
  raised : Bool
deriving DecidableEq

/-- The stage loop of `fix_file`: for each rule with a fixer, the old `dst`
becomes `src` (reading it yields the original file content while it is
still the file handle), a fresh buffer becomes `dst`, and the fixer runs;
success keeps `was_fixed`, an exception clears it (and leaves whatever the
fixer wrote in the fresh buffer as the new `dst`). -/
def fixLoop (fixerOf : FixRegistry) (orig : String) :
    List String → FixLoopState → FixLoopState
  | [], st => st
  | rule :: rest, st =>
    match fixerOf rule with
    | none => fixLoop fixerOf orig rest st
    | some f =>
      match f (st.dst.getD orig) with
      | .ok out =>
          fixLoop fixerOf orig rest
            { wasFixed := st.wasFixed && true
            , dst := some out
            , events := st.events ++ [.runFixer rule]
            , raised := st.raised }
      | .exc ex _m =>
          fixLoop fixerOf orig rest
            { wasFixed := false
            , dst := some ex
            , events := st.events ++ [.runFixer rule]
            , raised := true }

/-- The outcome of one `fix_file` call: its return value, the file's content
afterwards (the original content when nothing was written), the event
trace, the instrumentation flag, and the final `fixed` buffer value. -/
structure FixResult where
  ok : Bool
  content : String
  events : List FixEvent
  raised : Bool
  buffer : String
deriving DecidableEq

/-- The final block of `fix_file`: take `fixed = dst.getvalue() if
hasattr(dst, 'getvalue') else ''` — the raw file handle has no `getvalue`,
so a run in which no fixer ran yields `''` (`st.dst.getD ""`) — and rewrite
the file only if `was_fixed` held and `fixed` is non-empty; otherwise
notify the error and leave the file unchanged. -/
def fix_file_commit (orig : String) (st : FixLoopState) : FixResult :=
  if st.wasFixed && !(st.dst.getD "").isEmpty then
    ⟨true, st.dst.getD "", st.events ++ [.writeFile (st.dst.getD "")], st.raised, st.dst.getD ""⟩
  else
    ⟨false, orig, st.events, st.raised, st.dst.getD ""⟩

/-- `fix_file(fname, rules)` in the standard file-backed mode
(`CONFIG['filter_mode']` false): optionally back the file up first, run the
stage loop starting from the original file handle, then commit. -/
def fix_file (fixerOf : FixRegistry) (createBackup : Bool) (orig : String)
    (rules : List String) : FixResult :=
  fix_file_commit orig
    (fixLoop fixerOf orig rules ⟨true, none, if createBackup then [.backup] else [], false⟩)

/-- `_fix_notabs`: replace each tab by four spaces. -/
def fix_notabs (s : String) : FixRun :=
  .ok (String.mk (replaceTabs s.data))

/-- `_fix_nocr`: `original.replace(b'\r', b'')`. -/
def fix_nocr (s : String) : FixRun :=
  .ok (String.mk (s.data.filter (fun c => c ≠ '\r')))

/-- `_fix_notrailingws`: for each input line, write the line with all
trailing whitespace stripped, followed by a newline. -/
def fix_notrailingws (s : String) : FixRun :=
  .ok (String.mk (((splitLinesKeep s.data).map
    (fun l => rstripChars pyWhitespace l ++ ['\n'])).flatten))

/-- `_fix_sql_semi_colon`: write the original content followed by
`'\n;\n'`. -/
def fix_sql_semi_colon (s : String) : FixRun :=
  .ok (s ++ "\n;\n")

/-- The fixer registry restricted to the embedded pure fixers; rules with no
`_fix_*` function at all (`utf8`, `nobom`, `ascii`, ...) map to `none`
exactly as `globals().get` does, and fixers that shell out to external
tools are covered by quantifying over `FixRegistry` in the theorems. -/
def theFixerOf : FixRegistry := fun r =>
  if r = "notabs" then some fix_notabs
  else if r = "nocr" then some fix_nocr
  else if r = "notrailingws" then some fix_notrailingws
  else if r = "sql_semi_colon" then some fix_sql_semi_colon
  else none

/-! ## Filter-mode gate in `main` -/

/-- The externally visible steps of `main`'s filter-mode branch. -/
inductive MainEvent where
  | notifyLine (msg : String)
  | validateFile (fname : String)
  | fixFileCall (fname : String)
  | copyThrough
deriving DecidableEq

def MainEvent.isWork : MainEvent → Bool
  | .validateFile _ => true
  | .fixFileCall _ => true
  | _ => false

/-- The outcome of the filter-mode branch: its events in order, and the
`sys.exit` code if one is reached (`none`: `main` falls through and the
process exits 0 normally). -/
structure FilterRun where
  events : List MainEvent
  exitCode : Option Nat
deriving DecidableEq

/-- `main`'s filter-mode branch (source lines 953-974): with more than one
file argument it prints a notice and exits with status 2 before anything
else; otherwise it validates the single file and, when fixing was
requested, either fixes it (exiting 0 or 1 with the fix outcome) or copies
stdin through.  `hasErrors` (were validation failures recorded?) and
`fixOk` (did `fix_file` return True?) are the two data-dependent outcomes,
supplied as parameters. -/
def main_filter_branch (doFix : Bool) (files : List String)
    (hasErrors fixOk : Bool) : FilterRun :=
  if files.length > 1 then
    { events := [.notifyLine "Filter only expects exactly one file name/path"]
    , exitCode := some 2 }
  else
    match files with
    | [] => { events := [], exitCode := none }
    | f :: _ =>
      if doFix then
        if hasErrors then
          { events := [.validateFile f, .fixFileCall f]
          , exitCode := some (if fixOk then 0 else 1) }
        else
          { events := [.validateFile f, .copyThrough], exitCode := none }
      else
        { events := [.validateFile f], exitCode := none }

/-! ## General lemmas -/

/-- A list is a prefix of itself followed by anything. -/
theorem isPrefixOf_append_self (l t : List Char) : l.isPrefixOf (l ++ t) = true := by
  induction l with
  | nil => simp [List.isPrefixOf]
  | cons c cs ih => simp [List.isPrefixOf, ih]

/-- Unfolding equation of `fixLoop`: a rule without a fixer is skipped. -/
theorem fixLoop_cons_none (f : FixRegistry) (o : String) (r : String) (rs : List String)
    (st : FixLoopState) (h : f r = none) :
    fixLoop f o (r :: rs) st = fixLoop f o rs st := by
  simp only [fixLoop, h]

/-- Unfolding equation of `fixLoop`: a successful stage chains its output. -/
theorem fixLoop_cons_ok (f : FixRegistry) (o : String) (r : String) (rs : List String)
    (st : FixLoopState) (fx : String → FixRun) (out : String)
    (h : f r = some fx) (h2 : fx (st.dst.getD o) = .ok out) :
    fixLoop f o (r :: rs) st =
      fixLoop f o rs
        { wasFixed := st.wasFixed && true, dst := some out
        , events := st.events ++ [.runFixer r], raised := st.raised } := by
  simp only [fixLoop, h, h2]

/-- Unfolding equation of `fixLoop`: a raising stage clears `was_fixed` and
leaves its partial output as the chained buffer. -/
theorem fixLoop_cons_exc (f : FixRegistry) (o : String) (r : String) (rs : List String)
    (st : FixLoopState) (fx : String → FixRun) (ex m : String)
    (h : f r = some fx) (h2 : fx (st.dst.getD o) = .exc ex m) :
    fixLoop f o (r :: rs) st =
      fixLoop f o rs
        { wasFixed := false, dst := some ex
        , events := st.events ++ [.runFixer r], raised := true } := by
  simp only [fixLoop, h, h2]

/-- `textContains` finds a needle that occurs between two context pieces. -/
theorem textContains_of_parts (pre needle post : List Char) :
    textContains needle (pre ++ (needle ++ post)) = true := by
  unfold textContains
  rw [List.any_eq_true]
  refine ⟨pre.length, ?_, ?_⟩
  · rw [List.mem_range]
    simp only [List.length_append]
    omega
  · rw [List.drop_left]
    exact isPrefixOf_append_self needle post

/-- Concatenating strings concatenates their character lists. -/
theorem string_data_append (a b : String) : (a ++ b).data = a.data ++ b.data := by
  cases a; cases b; rfl

/-- The `was_fixed` flag of the fix loop stays the exact complement of the
raised-instrumentation flag: it starts `True`, survives successful stages
(`was_fixed &= True`), and is cleared exactly by an exception. -/
theorem fixLoop_wasFixed_inv (f : FixRegistry) (o : String) (rs : List String)
    (st : FixLoopState) (h : st.wasFixed = !st.raised) :
    (fixLoop f o rs st).wasFixed = !(fixLoop f o rs st).raised := by
  induction rs generalizing st with
  | nil => simpa [fixLoop] using h
  | cons r rest ih =>
    cases hf : f r with
    | none => rw [fixLoop_cons_none f o r rest st hf]; exact ih st h
    | some fx =>
      cases hrun : fx (st.dst.getD o) with
      | ok out =>
          rw [fixLoop_cons_ok f o r rest st fx out hf hrun]
          exact ih _ (by simpa using h)
      | exc ex m =>
          rw [fixLoop_cons_exc f o r rest st fx ex m hf hrun]
          exact ih _ (by simp)

/-- The fix loop only appends fixer-invocation events. -/
theorem fixLoop_events_shape (f : FixRegistry) (o : String) (rs : List String)
    (st : FixLoopState) :
    ∃ t, (fixLoop f o rs st).events = st.events ++ t ∧
      ∀ e ∈ t, ∃ r, e = FixEvent.runFixer r := by
  induction rs generalizing st with
  | nil => exact ⟨[], by simp [fixLoop], by simp⟩
  | cons r rest ih =>
    cases hf : f r with
    | none => rw [fixLoop_cons_none f o r rest st hf]; exact ih st
    | some fx =>
      cases hrun : fx (st.dst.getD o) with
      | ok out =>
          rw [fixLoop_cons_ok f o r rest st fx out hf hrun]
          obtain ⟨t, ht, hall⟩ := ih
            { wasFixed := st.wasFixed && true, dst := some out
            , events := st.events ++ [.runFixer r], raised := st.raised }
          refine ⟨.runFixer r :: t, ?_, ?_⟩
          · simpa [List.append_assoc] using ht
          · intro e he
            rcases List.mem_cons.mp he with rfl | he
            · exact ⟨r, rfl⟩
            · exact hall e he
      | exc ex m =>
          rw [fixLoop_cons_exc f o r rest st fx ex m hf hrun]
          obtain ⟨t, ht, hall⟩ := ih
            { wasFixed := false, dst := some ex
            , events := st.events ++ [.runFixer r], raised := true }
          refine ⟨.runFixer r :: t, ?_, ?_⟩
          · simpa [List.append_assoc] using ht
          · intro e he
            rcases List.mem_cons.mp he with rfl | he
            · exact ⟨r, rfl⟩
            · exact hall e he

/-- A registry with no fixer for any of the given rules leaves the loop
state untouched. -/
theorem fixLoop_id_of_no_fixer (f : FixRegistry) (o : String) (rs : List String)
    (st : FixLoopState) (h : ∀ r ∈ rs, f r = none) :
    fixLoop f o rs st = st := by
  induction rs with
  | nil => rfl
  | cons r rest ih =>
    rw [fixLoop_cons_none f o r rest st (h r (List.mem_cons_self r rest))]
    exact ih (fun r' hr' => h r' (List.mem_cons_of_mem r hr'))

/-- Events of the loop run from the initial `fix_file` state contain no
write (and the initial events are the optional backup only). -/
theorem fix_file_events_split (fixerOf : FixRegistry) (cb : Bool) (orig : String)
    (rules : List String) :
    ∃ t, (fixLoop fixerOf orig rules
        ⟨true, none, if cb then [.backup] else [], false⟩).events =
        (if cb then [FixEvent.backup] else []) ++ t ∧
      ∀ e ∈ t, ∃ r, e = FixEvent.runFixer r :=
  fixLoop_events_shape fixerOf orig rules _

/-- Committing when the guard fails returns failure with the original
content and no new event. -/
theorem fix_file_commit_else (orig : String) (st : FixLoopState)
    (h : (st.wasFixed && !(st.dst.getD "").isEmpty) = false) :
    fix_file_commit orig st = ⟨false, orig, st.events, st.raised, st.dst.getD ""⟩ := by
  unfold fix_file_commit
  simp [h]

/-- Committing when the guard holds writes the buffer. -/
theorem fix_file_commit_then (orig : String) (st : FixLoopState)
    (h : (st.wasFixed && !(st.dst.getD "").isEmpty) = true) :
    fix_file_commit orig st =
      ⟨true, st.dst.getD "", st.events ++ [.writeFile (st.dst.getD "")], st.raised,
        st.dst.getD ""⟩ := by
  unfold fix_file_commit
  simp [h]

/-- The commit step passes the instrumentation flag through. -/
theorem fix_file_commit_raised (orig : String) (st : FixLoopState) :
    (fix_file_commit orig st).raised = st.raised := by
  unfold fix_file_commit
  split <;> rfl

/-! ## Claims about the fix pipeline -/

/-- Claim C1: if any fix stage raises an exception then the fix is reported
as failure, the original file's content is byte-for-byte unchanged, and no
(partially transformed) content is ever written to the file. -/
theorem fix_pipeline_atomic_on_exception (fixerOf : FixRegistry) (cb : Bool)
    (orig : String) (rules : List String)
    (h : (fix_file fixerOf cb orig rules).raised = true) :
    (fix_file fixerOf cb orig rules).ok = false ∧
    (fix_file fixerOf cb orig rules).content = orig ∧
    (fix_file fixerOf cb orig rules).events.any FixEvent.isWrite = false := by
  have hwf := fixLoop_wasFixed_inv fixerOf orig rules
    ⟨true, none, if cb then [.backup] else [], false⟩ (by rfl)
  obtain ⟨t, ht, hall⟩ := fix_file_events_split fixerOf cb orig rules
  set st := fixLoop fixerOf orig rules ⟨true, none, if cb then [.backup] else [], false⟩ with hst
  have hfe : fix_file fixerOf cb orig rules = fix_file_commit orig st := rfl
  have hr : st.raised = true := by
    rw [hfe, fix_file_commit_raised] at h
    exact h
  have hwf' : st.wasFixed = false := by rw [hwf, hr]; rfl
  have hc : (st.wasFixed && !(st.dst.getD "").isEmpty) = false := by rw [hwf']; rfl
  rw [hfe, fix_file_commit_else orig st hc]
  refine ⟨rfl, rfl, ?_⟩
  show st.events.any FixEvent.isWrite = false
  rw [ht, List.any_append]
  have h1 : (if cb then [FixEvent.backup] else []).any FixEvent.isWrite = false := by
    cases cb <;> simp [FixEvent.isWrite]
  have h2 : t.any FixEvent.isWrite = false := by
    rw [List.any_eq_false]
    intro e he
    obtain ⟨r, rfl⟩ := hall e he
    simp [FixEvent.isWrite]
  rw [h1, h2]
  rfl

/-- Claim C5: the file is rewritten only when every stage succeeded and the
final buffer is non-empty; in particular a run whose stages all succeed but
whose final buffer is empty is reported as failed with the file untouched. -/
theorem fix_commit_requires_success_and_nonempty (fixerOf : FixRegistry) (cb : Bool)
    (orig : String) (rules : List String) :
    ((fix_file fixerOf cb orig rules).raised = false →
      (fix_file fixerOf cb orig rules).buffer = "" →
      (fix_file fixerOf cb orig rules).ok = false ∧
      (fix_file fixerOf cb orig rules).content = orig ∧
      (fix_file fixerOf cb orig rules).events.any FixEvent.isWrite = false) ∧
    ((fix_file fixerOf cb orig rules).events.any FixEvent.isWrite = true →
      (fix_file fixerOf cb orig rules).raised = false ∧
      (fix_file fixerOf cb orig rules).buffer ≠ "" ∧
      (fix_file fixerOf cb orig rules).ok = true ∧
      (fix_file fixerOf cb orig rules).content = (fix_file fixerOf cb orig rules).buffer) := by
  have hwf := fixLoop_wasFixed_inv fixerOf orig rules
    ⟨true, none, if cb then [.backup] else [], false⟩ (by rfl)
  obtain ⟨t, ht, hall⟩ := fix_file_events_split fixerOf cb orig rules
  set st := fixLoop fixerOf orig rules ⟨true, none, if cb then [.backup] else [], false⟩ with hst
  have hfe : fix_file fixerOf cb orig rules = fix_file_commit orig st := rfl
  have hnw : st.events.any FixEvent.isWrite = false := by
    rw [ht, List.any_append]
    have h1 : (if cb then [FixEvent.backup] else []).any FixEvent.isWrite = false := by
      cases cb <;> simp [FixEvent.isWrite]
    have h2 : t.any FixEvent.isWrite = false := by
      rw [List.any_eq_false]
      intro e he
      obtain ⟨r, rfl⟩ := hall e he
      simp [FixEvent.isWrite]
    rw [h1, h2]
    rfl
  by_cases hc : (st.wasFixed && !(st.dst.getD "").isEmpty) = true
  · have hb : (st.dst.getD "").isEmpty = false := by
      rcases Bool.and_eq_true_iff.mp hc with ⟨_, h2⟩
      simpa using h2
    have hne : st.dst.getD "" ≠ "" := by
      intro he
      rw [he] at hb
      simp [String.isEmpty] at hb
    have hrf : st.raised = false := by
      rcases Bool.and_eq_true_iff.mp hc with ⟨h1, _⟩
      rw [hwf] at h1
      cases hr : st.raised
      · rfl
      · rw [hr] at h1; simp at h1
    rw [hfe, fix_file_commit_then orig st hc]
    constructor
    · intro _ hbuf
      exact absurd hbuf hne
    · intro _
      exact ⟨hrf, hne, rfl, rfl⟩
  · have hc' : (st.wasFixed && !(st.dst.getD "").isEmpty) = false :=
      Bool.not_eq_true _ ▸ Bool.of_not_eq_true hc
    rw [hfe, fix_file_commit_else orig st hc']
    constructor
    · intro _ _
      exact ⟨rfl, rfl, hnw⟩
    · intro hw
      rw [hnw] at hw
      cases hw

/-- Claim C8: with backup creation enabled, every fix invocation records
exactly one backup event, and it comes before every fixer stage and before
any write. -/
theorem backup_once_before_stages (fixerOf : FixRegistry) (orig : String)
    (rules : List String) :
    (fix_file fixerOf true orig rules).events.head? = some FixEvent.backup ∧
    ((fix_file fixerOf true orig rules).events.filter FixEvent.isBackup).length = 1 := by
  obtain ⟨t, ht, hall⟩ := fix_file_events_split fixerOf true orig rules
  set st := fixLoop fixerOf orig rules ⟨true, none, if true then [.backup] else [], false⟩ with hst
  have hfe : fix_file fixerOf true orig rules = fix_file_commit orig st := rfl
  simp only [if_true] at ht
  have htf : t.filter FixEvent.isBackup = [] := by
    rw [List.filter_eq_nil_iff]
    intro e he
    obtain ⟨r, rfl⟩ := hall e he
    simp [FixEvent.isBackup]
  by_cases hc : (st.wasFixed && !(st.dst.getD "").isEmpty) = true
  · rw [hfe, fix_file_commit_then orig st hc, ht]
    refine ⟨rfl, ?_⟩
    simp [List.filter_append, htf, FixEvent.isBackup]
  · have hc' : (st.wasFixed && !(st.dst.getD "").isEmpty) = false :=
      Bool.not_eq_true _ ▸ Bool.of_not_eq_true hc
    rw [hfe, fix_file_commit_else orig st hc', ht]
    refine ⟨rfl, ?_⟩
    simp [List.filter_append, htf, FixEvent.isBackup]

/-- Claim C10: a fix invocation whose rules all lack a fix capability
reports failure and leaves the file unchanged — with no fixer the `dst`
buffer is still the raw file handle, so the final content is taken as
empty and the commit is skipped. -/
theorem fix_without_fixers_fails (fixerOf : FixRegistry) (cb : Bool) (orig : String)
    (rules : List String) (_h1 : rules ≠ [])
    (h2 : ∀ r ∈ rules, fixerOf r = none) :
    (fix_file fixerOf cb orig rules).ok = false ∧
    (fix_file fixerOf cb orig rules).content = orig ∧
    (fix_file fixerOf cb orig rules).events.any FixEvent.isWrite = false := by
  unfold fix_file
  rw [fixLoop_id_of_no_fixer fixerOf orig rules _ h2]
  rw [fix_file_commit_else orig _ (by rfl)]
  refine ⟨rfl, rfl, ?_⟩
  cases cb <;> simp [FixEvent.isWrite]

/-- A fixer behaviour that raises, as `_fix_xmlfmt` does on malformed XML
(`lxml` raises before writing anything into the fresh destination buffer). -/
def raisingFixerOf : FixRegistry := fun r =>
  if r = "xmlfmt" then
    some (fun _ => .exc "" "XMLSyntaxError: Start tag expected")
  else none

/-- Witness for claim C1 at a concrete raising pipeline. -/
theorem fix_pipeline_atomic_on_exception_witness :
    (fix_file raisingFixerOf true "<a" ["xmlfmt"]).ok = false ∧
    (fix_file raisingFixerOf true "<a" ["xmlfmt"]).content = "<a" ∧
    (fix_file raisingFixerOf true "<a" ["xmlfmt"]).events.any FixEvent.isWrite = false :=
  fix_pipeline_atomic_on_exception raisingFixerOf true "<a" ["xmlfmt"] (by decide)

/-- A fixer behaviour that succeeds with empty output, as `_fix_jalopy` does
when `__jalopy` falls back to returning the empty string. -/
def emptyOutFixerOf : FixRegistry := fun r =>
  if r = "jalopy" then some (fun _ => .ok "") else none

/-- Witness for claim C5 at a concrete empty-output pipeline. -/
theorem fix_commit_requires_success_and_nonempty_witness :
    (fix_file emptyOutFixerOf true "class A" ["jalopy"]).ok = false ∧
    (fix_file emptyOutFixerOf true "class A" ["jalopy"]).content = "class A" ∧
    (fix_file emptyOutFixerOf true "class A" ["jalopy"]).events.any FixEvent.isWrite = false :=
  (fix_commit_requires_success_and_nonempty emptyOutFixerOf true "class A" ["jalopy"]).1
    (by decide) (by decide)

/-- Witness for claim C10: `utf8` and `nobom` have checks but no
`_fix_*` function at all. -/
theorem fix_without_fixers_fails_witness :
    (fix_file theFixerOf true "caffee\n" ["utf8", "nobom"]).ok = false ∧
    (fix_file theFixerOf true "caffee\n" ["utf8", "nobom"]).content = "caffee\n" ∧
    (fix_file theFixerOf true "caffee\n" ["utf8", "nobom"]).events.any FixEvent.isWrite = false :=
  fix_without_fixers_fails theFixerOf true "caffee\n" ["utf8", "nobom"]
    (by simp)
    (by
      intro r hr
      simp only [List.mem_cons, List.not_mem_nil, or_false] at hr
      rcases hr with rfl | rfl <;> rfl)

/-- Claim C4 counterexample: on the file content `"foo\t \n"` with rules
`[notabs, notrailingws]`, the fix pipeline rewrites the file (so the claim
applies), but the final content is `"foo\n"` — the `notrailingws` stage
strips the spaces the tab expansion produced — not the claimed
`"foo    \n"`. -/
theorem fix_example_final_content_refutes :
    (fix_file theFixerOf true "foo\t \n" ["notabs", "notrailingws"]).ok = true ∧
    (fix_file theFixerOf true "foo\t \n" ["notabs", "notrailingws"]).content = "foo\n" ∧
    "foo\n" ≠ "foo    \n" := by
  decide

/-- Claim C4 as amended: validating `"foo\t \n"` with `[notabs,
notrailingws]` records exactly the two failures `contains tabs` and
`contains lines with trailing whitespace`; fixing with those two rules in
that order rewrites the file, and the final content is `"foo\n"` (the tab
is gone and so is all trailing whitespace — including the four spaces the
tab became, which the second fixer strips). -/
theorem fix_example_final_content :
    (validateRulesList theCheckOf theMsgOf false "a.txt" "foo\t \n"
        ["notabs", "notrailingws"] VState.empty).errors =
      [("a.txt", "notabs"), ("a.txt", "notrailingws")] ∧
    (validateRulesList theCheckOf theMsgOf false "a.txt" "foo\t \n"
        ["notabs", "notrailingws"] VState.empty).report.map ReportEntry.message =
      ["contains tabs", "contains lines with trailing whitespace"] ∧
    (fix_file theFixerOf true "foo\t \n" ["notabs", "notrailingws"]).ok = true ∧
    (fix_file theFixerOf true "foo\t \n" ["notabs", "notrailingws"]).content = "foo\n" ∧
    (fix_file theFixerOf true "foo\t \n" ["notabs", "notrailingws"]).events =
      [.backup, .runFixer "notabs", .runFixer "notrailingws", .writeFile "foo\n"] := by
  decide

/-! ## Claim about rule resolution -/

/-- Claim C2: the rules `validate_file` dispatches are the directory-name
rules first, then the glob-pattern rules, each in configuration insertion
order; concretely, `project/database/schema.sql` under the default
configuration resolves to `database_dir` (from the directory-name key
`database`) followed by the `*.sql` glob rules — and `database_dir` is
selected by no glob pattern. -/
theorem resolution_dir_rules_before_glob_rules :
    (∀ cfg : Config, ∀ cwd fname : String,
      validate_file_rule_sequence cfg cwd fname =
        if excludedB cfg fname then []
        else validate_file_dir_rules_rules cfg cwd fname ++
          validate_file_glob_rules cfg fname) ∧
    validate_file_rule_sequence theConfig "/workdir" "project/database/schema.sql" =
      ["database_dir", "utf8", "nobom", "notabs", "nocr", "notrailingws", "sql_semi_colon"] ∧
    (theConfig.rules.all (fun pr =>
      !(fnmatchStr "project/database/schema.sql" pr.1) ||
        !(pr.2.contains "database_dir"))) = true := by
  refine ⟨fun cfg cwd fname => rfl, by decide, by decide⟩

/-! ## Lemmas about the validation dispatcher -/

/-- Unfolding equation of `validateRulesList`. -/
theorem validateRulesList_cons (checkOf : Registry) (msgOf : String → String)
    (verbose : Bool) (fname content r : String) (rs : List String) (st : VState) :
    validateRulesList checkOf msgOf verbose fname content (r :: rs) st =
      validateRulesList checkOf msgOf verbose fname content rs
        (validateRule checkOf msgOf verbose fname content r st) := rfl

/-- Unfolding equation of `validateJobs`. -/
theorem validateJobs_cons (checkOf : Registry) (msgOf : String → String) (verbose : Bool)
    (f c : String) (rs : List String) (jobs : List (String × String × List String))
    (st : VState) :
    validateJobs checkOf msgOf verbose ((f, c, rs) :: jobs) st =
      validateJobs checkOf msgOf verbose jobs
        (validateRulesList checkOf msgOf verbose f c rs st) := rfl

/-- Reporting a failure appends it to `VALIDATION_ERRORS`. -/
theorem errorStep_errors (verbose : Bool) (fname rule msg : String) (st : VState) :
    (errorStep verbose fname rule msg st).errors = st.errors ++ [(fname, rule)] := rfl

/-- Reporting a failure prints its message last. -/
theorem errorStep_lastMessage (verbose : Bool) (fname rule msg : String) (st : VState) :
    (errorStep verbose fname rule msg st).lastMessage = some msg := by
  unfold errorStep VState.lastMessage
  simp

/-- Unfolding equation of `validateRule`: raising check. -/
theorem validateRule_exc (checkOf : Registry) (msgOf : String → String) (verbose : Bool)
    (fname content rule : String) (st : VState) (chk : String → CheckRun)
    (e : PyExc) (ds : List Detail)
    (h1 : checkOf rule = some chk) (h2 : chk content = .exc e ds) :
    validateRule checkOf msgOf verbose fname content rule st =
      errorStep verbose fname rule ("ERROR validating " ++ rule ++ ": " ++ e.render)
        { st with details := st.details ++ ds } := by
  simp only [validateRule, h1, h2]

/-- Unfolding equation of `validateRule`: passing check (truthy boolean). -/
theorem validateRule_pass (checkOf : Registry) (msgOf : String → String) (verbose : Bool)
    (fname content rule : String) (st : VState) (chk : String → CheckRun) (ds : List Detail)
    (h1 : checkOf rule = some chk) (h2 : chk content = .ret (.bool true) ds) :
    validateRule checkOf msgOf verbose fname content rule st =
      { st with details := st.details ++ ds } := by
  simp [validateRule, h1, h2]

/-- Unfolding equation of `validateRule`: falsy boolean return. -/
theorem validateRule_bool_false (checkOf : Registry) (msgOf : String → String)
    (verbose : Bool) (fname content rule : String) (st : VState)
    (chk : String → CheckRun) (ds : List Detail)
    (h1 : checkOf rule = some chk) (h2 : chk content = .ret (.bool false) ds) :
    validateRule checkOf msgOf verbose fname content rule st =
      errorStep verbose fname rule (msgOf rule) { st with details := st.details ++ ds } := by
  simp [validateRule, h1, h2]

/-- Unfolding equation of `validateRule`: string return. -/
theorem validateRule_str (checkOf : Registry) (msgOf : String → String) (verbose : Bool)
    (fname content rule : String) (st : VState) (chk : String → CheckRun)
    (s : String) (ds : List Detail)
    (h1 : checkOf rule = some chk) (h2 : chk content = .ret (.str s) ds) :
    validateRule checkOf msgOf verbose fname content rule st =
      errorStep verbose fname rule (if s.isEmpty then msgOf rule else s)
        { st with details := st.details ++ ds } := by
  by_cases hs : s.isEmpty = true
  · simp only [validateRule, h1, h2, hs, if_true]
  · have hs' : s.isEmpty = false := Bool.of_not_eq_true hs
    simp only [validateRule, h1, h2, hs', Bool.false_eq_true, if_false]

/-! ## Claim about check-return interpretation -/

/-- Claim C3: a check's return value is interpreted as — truthy non-string:
pass (no failure recorded, state only accumulates the run's details); falsy
(boolean `False` or empty string): fail with the rule's default message;
non-empty string: fail with that string as the message. -/
theorem check_return_interpretation (checkOf : Registry) (msgOf : String → String)
    (verbose : Bool) (fname content rule : String) (st : VState)
    (chk : String → CheckRun) (v : PyValue) (ds : List Detail)
    (h1 : checkOf rule = some chk) (h2 : chk content = .ret v ds) :
    (v.truthy = true → v.isStr = false →
      validateRule checkOf msgOf verbose fname content rule st =
        { st with details := st.details ++ ds }) ∧
    (v.truthy = false →
      (validateRule checkOf msgOf verbose fname content rule st).errors =
        st.errors ++ [(fname, rule)] ∧
      (validateRule checkOf msgOf verbose fname content rule st).lastMessage =
        some (msgOf rule)) ∧
    (∀ s : String, v = .str s → s ≠ "" →
      (validateRule checkOf msgOf verbose fname content rule st).errors =
        st.errors ++ [(fname, rule)] ∧
      (validateRule checkOf msgOf verbose fname content rule st).lastMessage = some s) := by
  refine ⟨?_, ?_, ?_⟩
  · intro htr hstr
    cases v with
    | bool b =>
        cases b with
        | true => exact validateRule_pass checkOf msgOf verbose fname content rule st chk ds h1 h2
        | false => cases htr
    | str s => cases hstr
  · intro htr
    cases v with
    | bool b =>
        cases b with
        | true => cases htr
        | false =>
            rw [validateRule_bool_false checkOf msgOf verbose fname content rule st chk ds h1 h2]
            exact ⟨rfl, errorStep_lastMessage _ _ _ _ _⟩
    | str s =>
        have hs : s.isEmpty = true := by simpa [PyValue.truthy] using htr
        rw [validateRule_str checkOf msgOf verbose fname content rule st chk s ds h1 h2, hs]
        exact ⟨rfl, by simpa using errorStep_lastMessage verbose fname rule (msgOf rule) _⟩
  · intro s hv hne
    cases hv
    have hs : s.isEmpty = false := by
      cases he : s.isEmpty
      · rfl
      · exact absurd ((String.isEmpty_iff s).mp he) hne
    rw [validateRule_str checkOf msgOf verbose fname content rule st chk s ds h1 h2, hs]
    exact ⟨rfl, by simpa using errorStep_lastMessage verbose fname rule s _⟩

/-- A check behaviour returning a dynamic message string, as
`_validate_sql_diff_dir` does for a patch placed in a directory that is not
named after a ticket. -/
def strCheckOf : Registry := fun r =>
  if r = "sql_diff_dir" then
    some (fun _ => .ret
      (.str "Patch should be located in directory with the name of the jira ticket") [])
  else none

/-- Witness for claim C3: the string return becomes the failure message. -/
theorem check_return_interpretation_witness :
    (validateRule strCheckOf theMsgOf false "db_diffs/x/x.sql_diff" "select 1;"
        "sql_diff_dir" VState.empty).errors = [("db_diffs/x/x.sql_diff", "sql_diff_dir")] ∧
    (validateRule strCheckOf theMsgOf false "db_diffs/x/x.sql_diff" "select 1;"
        "sql_diff_dir" VState.empty).lastMessage =
      some "Patch should be located in directory with the name of the jira ticket" := by
  have h := (check_return_interpretation strCheckOf theMsgOf false "db_diffs/x/x.sql_diff"
    "select 1;" "sql_diff_dir" VState.empty _ _ _ rfl rfl).2.2
    "Patch should be located in directory with the name of the jira ticket" rfl (by decide)
  simpa [VState.empty] using h

/-! ## Claim about exceptions raised by checks -/

/-- Claim C6 counterexample: a check that raises a builtin exception — here
`sql_semi_colon`'s `import sqlparse` raising `ImportError` — is recorded as
a failure whose message is `ERROR validating <rule>: <str(e)>`, and for a
builtin exception `str(e)` is the text alone: the exception's class name
does not appear anywhere in the message, refuting "the message embeds the
exception's class". -/
def importErrorCheckOf : Registry := fun r =>
  if r = "sql_semi_colon" then
    some (fun _ => .exc ⟨"ImportError", "No module named sqlparse", false⟩ [])
  else none

/-- Claim C6 counterexample theorem. -/
theorem exception_message_lacks_class :
    (validateRulesList importErrorCheckOf theMsgOf false "q.sql" "select 1"
        ["sql_semi_colon"] VState.empty).lastMessage =
      some "ERROR validating sql_semi_colon: No module named sqlparse" ∧
    textContains "ImportError".data
      "ERROR validating sql_semi_colon: No module named sqlparse".data = false ∧
    (validateRulesList importErrorCheckOf theMsgOf false "q.sql" "select 1"
        ["sql_semi_colon"] VState.empty).errors = [("q.sql", "sql_semi_colon")] := by
  decide

/-- Claim C6 as amended: an exception raised by a check is caught and
converted into a recorded `(file, rule)` failure whose message embeds the
exception's rendering `str(e)` — which always contains the exception's
text, and also its class name when the exception is one of the program's
own types (whose `__str__` prepends the class) — and the dispatcher
continues with the remaining rules. -/
theorem exception_converted_to_failure (checkOf : Registry) (msgOf : String → String)
    (verbose : Bool) (fname content rule : String) (rest : List String) (st : VState)
    (chk : String → CheckRun) (e : PyExc) (ds : List Detail)
    (h1 : checkOf rule = some chk) (h2 : chk content = .exc e ds) :
    validateRulesList checkOf msgOf verbose fname content (rule :: rest) st =
      validateRulesList checkOf msgOf verbose fname content rest
        (errorStep verbose fname rule ("ERROR validating " ++ rule ++ ": " ++ e.render)
          { st with details := st.details ++ ds }) ∧
    (validateRule checkOf msgOf verbose fname content rule st).errors =
      st.errors ++ [(fname, rule)] ∧
    textContains e.text.data
      ("ERROR validating " ++ rule ++ ": " ++ e.render).data = true ∧
    (e.customStr = true →
      textContains e.cls.data
        ("ERROR validating " ++ rule ++ ": " ++ e.render).data = true) := by
  have hdata : ("ERROR validating " ++ rule ++ ": " ++ e.render).data =
      ("ERROR validating " ++ rule ++ ": ").data ++ e.render.data := by
    rw [string_data_append]
  refine ⟨?_, ?_, ?_, ?_⟩
  · rw [validateRulesList_cons,
      validateRule_exc checkOf msgOf verbose fname content rule st chk e ds h1 h2]
  · rw [validateRule_exc checkOf msgOf verbose fname content rule st chk e ds h1 h2]
    rfl
  · rw [hdata]
    unfold PyExc.render
    cases hcs : e.customStr
    · simpa using textContains_of_parts ("ERROR validating " ++ rule ++ ": ").data e.text.data []
    · simp only [if_true]
      rw [string_data_append, string_data_append]
      have := textContains_of_parts
        (("ERROR validating " ++ rule ++ ": ").data ++ (e.cls.data ++ ": ".data))
        e.text.data []
      simpa [List.append_assoc] using this
  · intro hcs
    rw [hdata]
    unfold PyExc.render
    rw [hcs]
    simp only [if_true]
    rw [string_data_append, string_data_append]
    have := textContains_of_parts ("ERROR validating " ++ rule ++ ": ").data e.cls.data
      (": ".data ++ e.text.data)
    simpa [List.append_assoc] using this

/-- A check behaviour raising one of the program's own exception types, as
`_validate_database_dir` does when the PostgreSQL parser binary is
missing. -/
def execErrorCheckOf : Registry := fun r =>
  if r = "database_dir" then
    some (fun _ => .exc
      ⟨"ExecutionError",
        "PostgreSQL parser binary not found, please set \"pgsql-parser-bin\" option",
        true⟩ [])
  else none

/-- Witness for claim C6 at a concrete raising check. -/
theorem exception_converted_to_failure_witness :
    textContains
      "PostgreSQL parser binary not found, please set \"pgsql-parser-bin\" option".data
      ("ERROR validating " ++ "database_dir" ++ ": " ++
        (PyExc.mk "ExecutionError"
          "PostgreSQL parser binary not found, please set \"pgsql-parser-bin\" option"
          true).render).data = true ∧
    textContains "ExecutionError".data
      ("ERROR validating " ++ "database_dir" ++ ": " ++
        (PyExc.mk "ExecutionError"
          "PostgreSQL parser binary not found, please set \"pgsql-parser-bin\" option"
          true).render).data = true :=
  ⟨(exception_converted_to_failure execErrorCheckOf theMsgOf false "database/a.sql"
      "select 1" "database_dir" [] VState.empty _ _ _ rfl rfl).2.2.1,
    (exception_converted_to_failure execErrorCheckOf theMsgOf false "database/a.sql"
      "select 1" "database_dir" [] VState.empty _ _ _ rfl rfl).2.2.2 rfl⟩

/-! ## Claim about detail-buffer isolation -/

/-- Unfolding equation of `validateRulesListSpec`. -/
theorem validateRulesListSpec_cons (checkOf : Registry) (msgOf : String → String)
    (verbose : Bool) (fname content r : String) (rs : List String) (st : VState) :
    validateRulesListSpec checkOf msgOf verbose fname content (r :: rs) st =
      validateRulesListSpec checkOf msgOf verbose fname content rs
        (validateRuleSpec checkOf msgOf verbose fname content r st) := rfl

/-- Unfolding equation of `validateJobsSpec`. -/
theorem validateJobsSpec_cons (checkOf : Registry) (msgOf : String → String) (verbose : Bool)
    (f c : String) (rs : List String) (jobs : List (String × String × List String))
    (st : VState) :
    validateJobsSpec checkOf msgOf verbose ((f, c, rs) :: jobs) st =
      validateJobsSpec checkOf msgOf verbose jobs
        (validateRulesListSpec checkOf msgOf verbose f c rs st) := rfl

/-- One dispatcher step agrees with its isolated-scoping counterpart when
the incoming detail buffer is empty and every passing check left no
details; the buffer is again empty afterwards. -/
theorem validateRule_spec_eq (checkOf : Registry) (msgOf : String → String) (verbose : Bool)
    (fname content rule : String) (st : VState) (hst : st.details = [])
    (hdisc : ∀ chk ds, checkOf rule = some chk →
      chk content = .ret (.bool true) ds → ds = []) :
    validateRule checkOf msgOf verbose fname content rule st =
      validateRuleSpec checkOf msgOf verbose fname content rule st ∧
    (validateRule checkOf msgOf verbose fname content rule st).details = [] := by
  obtain ⟨es, dsb, rp⟩ := st
  simp only [VState.mk.injEq] at hst
  subst hst
  cases hc : checkOf rule with
  | none =>
      constructor
      · simp [validateRule, validateRuleSpec, hc]
      · simp [validateRule, hc]
  | some chk =>
      cases hr : chk content with
      | exc e ds =>
          constructor
          · simp [validateRule, validateRuleSpec, hc, hr, errorStep, errorStepSpec]
          · simp [validateRule, hc, hr, errorStep]
      | ret v ds =>
          cases v with
          | bool b =>
              cases b with
              | true =>
                  have hds : ds = [] := hdisc chk ds hc hr
                  subst hds
                  constructor
                  · simp [validateRule, validateRuleSpec, hc, hr]
                  · simp [validateRule, hc, hr]
              | false =>
                  constructor
                  · simp [validateRule, validateRuleSpec, hc, hr, errorStep, errorStepSpec]
                  · simp [validateRule, hc, hr, errorStep]
          | str s =>
              constructor
              · simp [validateRule, validateRuleSpec, hc, hr, errorStep, errorStepSpec]
              · by_cases hs : s.isEmpty = true <;>
                  simp [validateRule, hc, hr, errorStep, hs]

/-- `validateRule_spec_eq` lifted to one file's whole rule list. -/
theorem validateRulesList_spec_eq (checkOf : Registry) (msgOf : String → String)
    (verbose : Bool) (fname content : String) (rules : List String) (st : VState)
    (hst : st.details = [])
    (hdisc : ∀ r chk c ds, checkOf r = some chk →
      chk c = .ret (.bool true) ds → ds = []) :
    validateRulesList checkOf msgOf verbose fname content rules st =
      validateRulesListSpec checkOf msgOf verbose fname content rules st ∧
    (validateRulesList checkOf msgOf verbose fname content rules st).details = [] := by
  induction rules generalizing st with
  | nil => exact ⟨rfl, hst⟩
  | cons r rs ih =>
      obtain ⟨heq, hd⟩ := validateRule_spec_eq checkOf msgOf verbose fname content r st hst
        (fun chk ds hc hr => hdisc r chk content ds hc hr)
      rw [validateRulesList_cons, validateRulesListSpec_cons, ← heq]
      exact ih (validateRule checkOf msgOf verbose fname content r st) hd

/-- `validateRulesList_spec_eq` lifted to a multi-file run. -/
theorem validateJobs_spec_eq (checkOf : Registry) (msgOf : String → String)
    (verbose : Bool) (jobs : List (String × String × List String)) (st : VState)
    (hst : st.details = [])
    (hdisc : ∀ r chk c ds, checkOf r = some chk →
      chk c = .ret (.bool true) ds → ds = []) :
    validateJobs checkOf msgOf verbose jobs st =
      validateJobsSpec checkOf msgOf verbose jobs st ∧
    (validateJobs checkOf msgOf verbose jobs st).details = [] := by
  induction jobs generalizing st with
  | nil => exact ⟨rfl, hst⟩
  | cons job jobs ih =>
      obtain ⟨f, c, rs⟩ := job
      obtain ⟨heq, hd⟩ := validateRulesList_spec_eq checkOf msgOf verbose f c rs st hst hdisc
      rw [validateJobs_cons, validateJobsSpec_cons, ← heq]
      exact ih (validateRulesList checkOf msgOf verbose f c rs st) hd

/-- Claim C7: the detail buffer is cleared whenever a failure is reported,
and — since every check of this program that records details also fails
(returns falsy, returns a message string, or raises; hypothesis `hdisc`) —
a whole validation run over any files and rules is exactly its
isolated-scoping counterpart, in which each reported failure shows the
details of its own rule invocation only; the buffer ends (and stays)
empty, so no detail of rule A on file X ever reaches the report of another
rule or file. -/
theorem detail_buffer_isolation (checkOf : Registry) (msgOf : String → String)
    (verbose : Bool) (jobs : List (String × String × List String)) (st : VState)
    (hst : st.details = [])
    (hdisc : ∀ r chk c ds, checkOf r = some chk →
      chk c = .ret (.bool true) ds → ds = []) :
    (∀ (vb : Bool) (f r m : String) (s : VState), (errorStep vb f r m s).details = []) ∧
    validateJobs checkOf msgOf verbose jobs st =
      validateJobsSpec checkOf msgOf verbose jobs st ∧
    (validateJobs checkOf msgOf verbose jobs st).details = [] := by
  obtain ⟨heq, hd⟩ := validateJobs_spec_eq checkOf msgOf verbose jobs st hst hdisc
  exact ⟨fun _ _ _ _ _ => rfl, heq, hd⟩

/-- Detail-recording failing checks, with the behaviours of
`_validate_xml` and `_validate_json` on malformed input. -/
def detailCheckOf : Registry := fun r =>
  if r = "xml" then
    some (fun _ => .ret (.bool false)
      [⟨"ParseError: no element found: line 1, column 1", none, none⟩])
  else if r = "json" then
    some (fun _ => .ret (.bool false)
      [⟨"ValueError: No JSON object could be decoded", none, none⟩])
  else none

/-- Witness for claim C7: a two-file verbose run with two detail-recording
failing checks coincides with its isolated-scoping counterpart and ends
with an empty buffer. -/
theorem detail_buffer_isolation_witness :
    (∀ (vb : Bool) (f r m : String) (s : VState), (errorStep vb f r m s).details = []) ∧
    validateJobs detailCheckOf theMsgOf true
        [("a.xml", "<a>", ["xml"]), ("b.json", "x", ["json"])] VState.empty =
      validateJobsSpec detailCheckOf theMsgOf true
        [("a.xml", "<a>", ["xml"]), ("b.json", "x", ["json"])] VState.empty ∧
    (validateJobs detailCheckOf theMsgOf true
        [("a.xml", "<a>", ["xml"]), ("b.json", "x", ["json"])] VState.empty).details = [] :=
  detail_buffer_isolation detailCheckOf theMsgOf true
    [("a.xml", "<a>", ["xml"]), ("b.json", "x", ["json"])] VState.empty rfl
    (by
      intro r chk c ds h1 h2
      unfold detailCheckOf at h1
      split at h1
      · injection h1 with h1
        subst h1
        simp at h2
      · split at h1
        · injection h1 with h1
          subst h1
          simp at h2
        · cases h1)

/-! ## Claim about the filter-mode file-count gate -/

/-- Claim C9: in single-file filter mode, more than one file argument makes
`main` print a notice and exit with status 2 — a non-zero status — before
any validation or fixing has happened. -/
theorem filter_mode_multiple_files_aborts (doFix hasErrors fixOk : Bool)
    (files : List String) (h : 1 < files.length) :
    main_filter_branch doFix files hasErrors fixOk =
      { events := [.notifyLine "Filter only expects exactly one file name/path"]
      , exitCode := some 2 } ∧
    (main_filter_branch doFix files hasErrors fixOk).exitCode ≠ some 0 ∧
    (main_filter_branch doFix files hasErrors fixOk).events.any MainEvent.isWork = false := by
  have hc : files.length > 1 := h
  unfold main_filter_branch
  rw [if_pos hc]
  refine ⟨rfl, by simp, rfl⟩

/-- Witness for claim C9 at two concrete file arguments. -/
theorem filter_mode_multiple_files_aborts_witness :
    main_filter_branch true ["a.py", "b.py"] true true =
      { events := [.notifyLine "Filter only expects exactly one file name/path"]
      , exitCode := some 2 } ∧
    (main_filter_branch true ["a.py", "b.py"] true true).exitCode ≠ some 0 ∧
    (main_filter_branch true ["a.py", "b.py"] true true).events.any MainEvent.isWork = false :=
  filter_mode_multiple_files_aborts true true true ["a.py", "b.py"] (by decide)

end CodeValidator
